import Mathlib

/-!
Shallow embedding of the regression core of the house-price-prediction
repository (files `src/lib/regression.ts` and `src/types/index.ts`, here
`src/unnamed/part_000` and `src/unnamed/part_001`).

Numbers are embedded as exact rationals (`ℚ`): the source uses JavaScript
doubles, and the specification states its properties over exact real
arithmetic, so the embedding is the exact-arithmetic reading of the code.
The only operation leaving ℚ is `Math.sqrt` in `rmse`; the result record
therefore stores the radicand `ssRes / n` in the field `rmseSq`, and every
statement about `rmse` is phrased as `Real.sqrt` of that field, so that
`rmse = Real.sqrt rmseSq` is the source's `Math.sqrt(ssRes / n)`.
-/

namespace Regression

/-- `DataPoint` from `src/types/index.ts`: `{ id: string; area: number; price: number }`. -/
structure DataPoint where
  id : String
  area : ℚ
  price : ℚ
deriving DecidableEq

/-- `RegressionResult` from `src/types/index.ts`.  The source field `rmse`
holds `Math.sqrt(ssRes / n)`; here `rmseSq` holds the exact radicand
`ssRes / n`, and the source's `rmse` is `Real.sqrt rmseSq`. -/
structure RegressionResult where
  m : ℚ
  b : ℚ
  r2 : ℚ
  rmseSq : ℚ
  equation : String
deriving DecidableEq

/-- The fractional part of a fixed-point rendering: exactly `d` decimal
digits of `n` (which is taken mod `10 ^ d`), most significant first. -/
def fracDigits (n d : ℕ) : String :=
  String.mk (((List.range d).reverse).map (fun i => Nat.digitChar (n / 10 ^ i % 10)))

/-- JavaScript `Number.prototype.toFixed(d)` read over exact rationals:
the sign is split off, `|q| * 10 ^ d` is rounded to the nearest integer
(ties away from zero, i.e. the larger candidate, as in ECMA-262), and the
result is printed in fixed-point notation with exactly `d` digits after
the decimal point. -/
def toFixed (q : ℚ) (d : ℕ) : String :=
  let s := if q < 0 then "-" else ""
  let scaled : ℕ := (⌊|q| * 10 ^ d + 1 / 2⌋).toNat
  let ip := scaled / 10 ^ d
  let fp := scaled % 10 ^ d
  s ++ Nat.repr ip ++ (if d = 0 then "" else "." ++ fracDigits fp d)

/-- The single `forEach` pass of `calculateRegression` accumulating
`(sumX, sumY, sumXY, sumXX)`. -/
def sums (data : List DataPoint) : ℚ × ℚ × ℚ × ℚ :=
  data.foldl
    (fun (s : ℚ × ℚ × ℚ × ℚ) p =>
      (s.1 + p.area, s.2.1 + p.price, s.2.2.1 + p.area * p.price, s.2.2.2 + p.area * p.area))
    (0, 0, 0, 0)

/-- `calculateRegression` from `src/lib/regression.ts`, line for line:
the `n < 2` guard throws (`Except.error`), the single pass computes the
four sums, a zero denominator returns the vertical-line sentinel, and
otherwise slope, intercept, r2, rmse and the equation string are produced.
-/
def calculateRegression (data : List DataPoint) : Except String RegressionResult :=
  let n : ℚ := data.length
  if data.length < 2 then
    Except.error "Insufficient data points"
  else
    match sums data with
    | (sumX, sumY, sumXY, sumXX) =>
      let denominator := n * sumXX - sumX * sumX
      if denominator = 0 then
        Except.ok { m := 0, b := 0, r2 := 0, rmseSq := 0, equation := "Undefined (Vertical Line)" }
      else
        let m := (n * sumXY - sumX * sumY) / denominator
        let b := (sumY - m * sumX) / n
        let meanY := sumY / n
        let st := data.foldl
          (fun (s : ℚ × ℚ) p =>
            (s.1 + (p.price - meanY) ^ 2, s.2 + (p.price - (m * p.area + b)) ^ 2))
          (0, 0)
        let ssTot := st.1
        let ssRes := st.2
        let r2 := if ssTot = 0 then 0 else 1 - ssRes / ssTot
        let rmseSq := ssRes / n
        Except.ok { m := m, b := b, r2 := r2, rmseSq := rmseSq,
                    equation := "y = " ++ toFixed m 4 ++ "x + " ++ toFixed b 2 }

/-- `predictPrice` from `src/lib/regression.ts`: `m * area + b`. -/
def predictPrice (area m b : ℚ) : ℚ :=
  m * area + b

/-! Closed-form views of the accumulated quantities, used to state the
specification-level properties.  They are proved equal to the folds of
`calculateRegression` below. -/

/-- Sum of the x (area) values. -/
def sX (data : List DataPoint) : ℚ := (data.map (fun p => p.area)).sum

/-- Sum of the y (price) values. -/
def sY (data : List DataPoint) : ℚ := (data.map (fun p => p.price)).sum

/-- Sum of the products x·y. -/
def sXY (data : List DataPoint) : ℚ := (data.map (fun p => p.area * p.price)).sum

/-- Sum of the squares x·x. -/
def sXX (data : List DataPoint) : ℚ := (data.map (fun p => p.area * p.area)).sum

/-- The OLS denominator `n·sumXX − sumX²`. -/
def den (data : List DataPoint) : ℚ :=
  (data.length : ℚ) * sXX data - sX data * sX data

/-- The OLS slope `(n·sumXY − sumX·sumY) / denominator`. -/
def slope (data : List DataPoint) : ℚ :=
  ((data.length : ℚ) * sXY data - sX data * sY data) / den data

/-- The OLS intercept `(sumY − slope·sumX) / n`. -/
def intercept (data : List DataPoint) : ℚ :=
  (sY data - slope data * sX data) / (data.length : ℚ)

/-- The mean of the y values. -/
def meanY (data : List DataPoint) : ℚ := sY data / (data.length : ℚ)

/-- Total sum of squares `Σ(y − meanY)²`. -/
def ssTot (data : List DataPoint) : ℚ :=
  (data.map (fun p => (p.price - meanY data) ^ 2)).sum

/-- Residual sum of squares `Σ(y − (slope·x + intercept))²`. -/
def ssRes (data : List DataPoint) : ℚ :=
  (data.map (fun p => (p.price - (slope data * p.area + intercept data)) ^ 2)).sum

/-- The projection of a data point to its numeric components, forgetting `id`. -/
def pairOf (p : DataPoint) : ℚ × ℚ := (p.area, p.price)

/-! Bridge lemmas: the folds of `calculateRegression` equal the closed-form
map-sums. -/

lemma sums_go (data : List DataPoint) :
    ∀ a b c d : ℚ,
      data.foldl
        (fun (s : ℚ × ℚ × ℚ × ℚ) p =>
          (s.1 + p.area, s.2.1 + p.price, s.2.2.1 + p.area * p.price, s.2.2.2 + p.area * p.area))
        (a, b, c, d)
      = (a + sX data, b + sY data, c + sXY data, d + sXX data) := by
  induction data with
  | nil => intro a b c d; simp [sX, sY, sXY, sXX]
  | cons p l ih =>
    intro a b c d
    simp only [List.foldl_cons, ih, sX, sY, sXY, sXX, List.map_cons, List.sum_cons]
    refine Prod.ext (by ring) (Prod.ext (by ring) (Prod.ext (by ring) (by ring)))

lemma sums_eq (data : List DataPoint) :
    sums data = (sX data, sY data, sXY data, sXX data) := by
  have h := sums_go data 0 0 0 0
  simpa [sums] using h

lemma ssfold_go (c mq bq : ℚ) (data : List DataPoint) :
    ∀ a b : ℚ,
      data.foldl
        (fun (s : ℚ × ℚ) p =>
          (s.1 + (p.price - c) ^ 2, s.2 + (p.price - (mq * p.area + bq)) ^ 2))
        (a, b)
      = (a + (data.map (fun p => (p.price - c) ^ 2)).sum,
         b + (data.map (fun p => (p.price - (mq * p.area + bq)) ^ 2)).sum) := by
  induction data with
  | nil => intro a b; simp
  | cons p l ih =>
    intro a b
    simp only [List.foldl_cons, ih, List.map_cons, List.sum_cons]
    refine Prod.ext (by ring) (by ring)

/-! Path lemmas: closed forms of the three return paths of
`calculateRegression`. -/

lemma calcReg_short (data : List DataPoint) (h : data.length < 2) :
    calculateRegression data = Except.error "Insufficient data points" := by
  simp [calculateRegression, h]

lemma calcReg_degenerate (data : List DataPoint) (h2 : ¬ data.length < 2)
    (hden : den data = 0) :
    calculateRegression data =
      Except.ok { m := 0, b := 0, r2 := 0, rmseSq := 0, equation := "Undefined (Vertical Line)" } := by
  have hden' : (data.length : ℚ) * sXX data - sX data * sX data = 0 := hden
  unfold calculateRegression
  rw [if_neg h2, sums_eq]
  simp only [hden', if_pos rfl, ite_true]

lemma calcReg_main (data : List DataPoint) (h2 : ¬ data.length < 2)
    (hden : den data ≠ 0) :
    calculateRegression data = Except.ok
      { m := slope data, b := intercept data,
        r2 := if ssTot data = 0 then 0 else 1 - ssRes data / ssTot data,
        rmseSq := ssRes data / (data.length : ℚ),
        equation := "y = " ++ toFixed (slope data) 4 ++ "x + " ++ toFixed (intercept data) 2 } := by
  have hden' : ¬ ((data.length : ℚ) * sXX data - sX data * sX data = 0) := hden
  unfold calculateRegression
  rw [if_neg h2, sums_eq]
  simp only [hden', if_neg, ite_false, ssfold_go, zero_add]
  rfl

/-! The denominator `n·sumXX − sumX²` vanishes exactly when all x values
coincide: it equals `n · Σ(x − mean x)²`. -/

lemma sum_sq_shift (l : List ℚ) (c : ℚ) :
    (l.map (fun x => (x - c) ^ 2)).sum
      = (l.map (fun x => x ^ 2)).sum - 2 * c * l.sum + (l.length : ℚ) * c ^ 2 := by
  induction l with
  | nil => simp
  | cons x l ih =>
    simp only [List.map_cons, List.sum_cons, ih, List.length_cons]
    push_cast
    ring

lemma sum_map_sq_nonneg {α : Type} (data : List α) (f : α → ℚ) :
    0 ≤ (data.map (fun a => (f a) ^ 2)).sum := by
  induction data with
  | nil => simp
  | cons p l ih =>
    simp only [List.map_cons, List.sum_cons]
    have h0 : (0:ℚ) ≤ (f p) ^ 2 := sq_nonneg _
    linarith

lemma sum_map_sq_eq_zero_iff {α : Type} (data : List α) (f : α → ℚ) :
    (data.map (fun a => (f a) ^ 2)).sum = 0 ↔ ∀ a ∈ data, f a = 0 := by
  induction data with
  | nil => simp
  | cons p l ih =>
    simp only [List.map_cons, List.sum_cons, List.mem_cons]
    constructor
    · intro h
      have h0 : (0:ℚ) ≤ (f p) ^ 2 := sq_nonneg _
      have h1 : 0 ≤ (l.map (fun a => (f a) ^ 2)).sum := sum_map_sq_nonneg l f
      have hp : (f p) ^ 2 = 0 := by linarith
      have hl : (l.map (fun a => (f a) ^ 2)).sum = 0 := by linarith
      intro a ha
      rcases ha with rfl | ha
      · exact pow_eq_zero_iff (n := 2) (by norm_num) |>.mp hp
      · exact ih.mp hl a ha
    · intro h
      have hp : f p = 0 := h p (Or.inl rfl)
      have hl : (l.map (fun a => (f a) ^ 2)).sum = 0 := ih.mpr (fun a ha => h a (Or.inr ha))
      simp [hp, hl]

lemma sum_const_of_all (l : List ℚ) (c : ℚ) (h : ∀ x ∈ l, x = c) :
    l.sum = (l.length : ℚ) * c := by
  induction l with
  | nil => simp
  | cons x l ih =>
    have hx : x = c := h x (List.mem_cons_self x l)
    have hl : l.sum = (l.length : ℚ) * c := ih (fun y hy => h y (List.mem_cons_of_mem x hy))
    simp only [List.sum_cons, hx, hl, List.length_cons]
    push_cast
    ring

lemma den_key (data : List DataPoint) (hn : (data.length : ℚ) ≠ 0) :
    den data = (data.length : ℚ)
      * ((data.map (fun p => (p.area - sX data / (data.length : ℚ)) ^ 2)).sum) := by
  have hshift := sum_sq_shift (data.map (fun p => p.area)) (sX data / (data.length : ℚ))
  rw [List.map_map] at hshift
  have hcomp :
      (data.map ((fun x => (x - sX data / (data.length : ℚ)) ^ 2) ∘ fun p => p.area))
        = data.map (fun p => (p.area - sX data / (data.length : ℚ)) ^ 2) := by
    simp [Function.comp]
  rw [hcomp] at hshift
  have hsq : ((data.map (fun p => p.area)).map (fun x => x ^ 2)).sum = sXX data := by
    rw [List.map_map]
    simp only [sXX, Function.comp, pow_two]
    rfl
  have hsum : (data.map (fun p => p.area)).sum = sX data := rfl
  have hlen : ((data.map (fun p => p.area)).length : ℚ) = (data.length : ℚ) := by
    rw [List.length_map]
  rw [hsq, hsum, hlen] at hshift
  rw [hshift]
  unfold den
  field_simp
  ring

lemma den_eq_zero_iff (data : List DataPoint) (hne : data ≠ []) :
    den data = 0 ↔ ∀ p ∈ data, ∀ q ∈ data, p.area = q.area := by
  have hlen : 0 < data.length := List.length_pos.mpr hne
  have hn : (data.length : ℚ) ≠ 0 := by
    exact_mod_cast Nat.pos_iff_ne_zero.mp hlen
  rw [den_key data hn]
  rw [mul_eq_zero]
  have hiff := sum_map_sq_eq_zero_iff data (fun p => p.area - sX data / (data.length : ℚ))
  constructor
  · intro h p hp q hq
    rcases h with h | h
    · exact absurd h hn
    · have := hiff.mp h
      have hp' := this p hp
      have hq' := this q hq
      have : p.area = sX data / (data.length : ℚ) := by linarith
      have hq2 : q.area = sX data / (data.length : ℚ) := by linarith
      rw [this, hq2]
  · intro h
    right
    apply hiff.mpr
    intro p hp
    have hall : ∀ x ∈ data.map (fun p => p.area), x = p.area := by
      intro x hx
      rcases List.mem_map.mp hx with ⟨q, hq, rfl⟩
      exact h q hq p hp
    have hsum : (data.map (fun p => p.area)).sum = ((data.map (fun p => p.area)).length : ℚ) * p.area :=
      sum_const_of_all _ _ hall
    have hsX : sX data = (data.length : ℚ) * p.area := by
      rw [sX, hsum, List.length_map]
    rw [hsX]
    field_simp

/-! Congruence: `calculateRegression` only looks at the length and at
sums of pointwise functions of (area, price). -/

lemma calcReg_congr (d d' : List DataPoint)
    (hlen : d.length = d'.length)
    (hsX : sX d = sX d') (hsY : sY d = sY d') (hsXY : sXY d = sXY d') (hsXX : sXX d = sXX d')
    (hT : ∀ c : ℚ, (d.map (fun p => (p.price - c) ^ 2)).sum
        = (d'.map (fun p => (p.price - c) ^ 2)).sum)
    (hR : ∀ mq bq : ℚ, (d.map (fun p => (p.price - (mq * p.area + bq)) ^ 2)).sum
        = (d'.map (fun p => (p.price - (mq * p.area + bq)) ^ 2)).sum) :
    calculateRegression d = calculateRegression d' := by
  by_cases h2 : d.length < 2
  · rw [calcReg_short d h2, calcReg_short d' (hlen ▸ h2)]
  · have h2' : ¬ d'.length < 2 := by rw [← hlen]; exact h2
    have hden : den d = den d' := by unfold den; rw [hlen, hsX, hsXX]
    by_cases hd : den d = 0
    · rw [calcReg_degenerate d h2 hd, calcReg_degenerate d' h2' (hden ▸ hd)]
    · have hd' : den d' ≠ 0 := by rw [← hden]; exact hd
      rw [calcReg_main d h2 hd, calcReg_main d' h2' hd']
      have hslope : slope d = slope d' := by unfold slope; rw [hlen, hsXY, hsX, hsY, hden]
      have hint : intercept d = intercept d' := by unfold intercept; rw [hsY, hslope, hsX, hlen]
      have hmean : meanY d = meanY d' := by unfold meanY; rw [hsY, hlen]
      have hssT : ssTot d = ssTot d' := by
        unfold ssTot; rw [← hmean]; exact hT (meanY d)
      have hssR : ssRes d = ssRes d' := by
        unfold ssRes; rw [← hslope, ← hint]; exact hR (slope d) (intercept d)
      rw [hslope, hint, hssT, hssR, hlen]

lemma mapsum_of_pair_eq (d d' : List DataPoint)
    (hmap : d.map pairOf = d'.map pairOf) (g : ℚ × ℚ → ℚ) :
    (d.map (fun p => g (pairOf p))).sum = (d'.map (fun p => g (pairOf p))).sum := by
  have h : d.map (fun p => g (pairOf p)) = d'.map (fun p => g (pairOf p)) := by
    calc d.map (fun p => g (pairOf p)) = (d.map pairOf).map g := by rw [List.map_map]; rfl
    _ = (d'.map pairOf).map g := by rw [hmap]
    _ = d'.map (fun p => g (pairOf p)) := by rw [List.map_map]; rfl
  rw [h]

/-! Structure of the `toFixed` rendering. -/

lemma fracDigits_length (n d : ℕ) : (fracDigits n d).length = d := by
  simp [fracDigits, String.length]

lemma digitChar_isDigit (k : ℕ) (h : k < 10) : (Nat.digitChar k).isDigit = true := by
  interval_cases k <;> rfl

lemma fracDigits_digits (n d : ℕ) : ∀ ch ∈ (fracDigits n d).data, ch.isDigit = true := by
  intro ch hch
  simp only [fracDigits, List.mem_map, List.mem_reverse, List.mem_range] at hch
  obtain ⟨i, _, rfl⟩ := hch
  exact digitChar_isDigit _ (Nat.mod_lt _ (by norm_num))

lemma toFixed_structure (q : ℚ) (d : ℕ) (hd : 0 < d) :
    ∃ pre frac : String, toFixed q d = pre ++ "." ++ frac ∧ frac.length = d ∧
      ∀ ch ∈ frac.data, ch.isDigit = true := by
  refine ⟨(if q < 0 then "-" else "") ++ Nat.repr ((⌊|q| * 10 ^ d + 1 / 2⌋).toNat / 10 ^ d),
    fracDigits ((⌊|q| * 10 ^ d + 1 / 2⌋).toNat % 10 ^ d) d,
    ?_, fracDigits_length _ _, fracDigits_digits _ _⟩
  unfold toFixed
  simp only [hd.ne', if_false, ite_false]
  simp [String.append_assoc]

/-- Closed-form evaluation of `toFixed` on a nonnegative rational, given
the rounded scaled value `z`. -/
lemma toFixed_concrete (q : ℚ) (d z : ℕ) (h0 : 0 ≤ q)
    (h1 : (z : ℚ) ≤ q * 10 ^ d + 1 / 2) (h2 : q * 10 ^ d + 1 / 2 < z + 1) :
    toFixed q d = Nat.repr (z / 10 ^ d)
      ++ (if d = 0 then "" else "." ++ fracDigits (z % 10 ^ d) d) := by
  have hz : ⌊q * 10 ^ d + 1 / 2⌋ = (z : ℤ) := by
    rw [Int.floor_eq_iff]
    constructor
    · exact_mod_cast h1
    · push_cast
      exact h2
  unfold toFixed
  rw [if_neg (not_lt.mpr h0), abs_of_nonneg h0, hz]
  simp

/-! Concrete observation lists used by the specification's examples. -/

/-- Points lying exactly on `y = 2x + 3`. -/
def exLine : List DataPoint :=
  [⟨"a", 1, 5⟩, ⟨"b", 2, 7⟩, ⟨"c", 3, 9⟩, ⟨"d", 4, 11⟩]

/-- Points with all x equal (vertical configuration). -/
def exVert : List DataPoint :=
  [⟨"a", 5, 100⟩, ⟨"b", 5, 200⟩, ⟨"c", 5, 300⟩]

/-- The round-trip scenario points. -/
def exRound : List DataPoint :=
  [⟨"a", 50, 100000⟩, ⟨"b", 100, 200000⟩, ⟨"c", 150, 300000⟩]

/-- Points with identical y values and distinct x values. -/
def exConstY : List DataPoint :=
  [⟨"a", 1, 50⟩, ⟨"b", 2, 50⟩, ⟨"c", 3, 50⟩]

lemma exLine_den : den exLine = 20 := by
  norm_num [den, sXX, sX, exLine]

lemma exLine_slope : slope exLine = 2 := by
  norm_num [slope, den, sXY, sXX, sX, sY, exLine]

lemma exLine_intercept : intercept exLine = 3 := by
  norm_num [intercept, slope, den, sXY, sXX, sX, sY, exLine]

lemma exLine_ssTot : ssTot exLine = 20 := by
  norm_num [ssTot, meanY, sY, exLine]

lemma exLine_ssRes : ssRes exLine = 0 := by
  norm_num [ssRes, slope, intercept, den, sXY, sXX, sX, sY, exLine]

lemma exLine_eval : calculateRegression exLine =
    Except.ok { m := 2, b := 3, r2 := 1, rmseSq := 0, equation := "y = 2.0000x + 3.00" } := by
  have h2 : ¬ exLine.length < 2 := by decide
  have hden : den exLine ≠ 0 := by rw [exLine_den]; norm_num
  rw [calcReg_main exLine h2 hden, exLine_slope, exLine_intercept, exLine_ssTot, exLine_ssRes]
  have heq : "y = " ++ toFixed (2:ℚ) 4 ++ "x + " ++ toFixed (3:ℚ) 2 = "y = 2.0000x + 3.00" := by
    rw [toFixed_concrete 2 4 20000 (by norm_num) (by norm_num) (by norm_num),
        toFixed_concrete 3 2 300 (by norm_num) (by norm_num) (by norm_num)]
    decide
  rw [heq]
  norm_num [exLine]

lemma exVert_eval : calculateRegression exVert =
    Except.ok { m := 0, b := 0, r2 := 0, rmseSq := 0, equation := "Undefined (Vertical Line)" } := by
  have h2 : ¬ exVert.length < 2 := by decide
  have hden : den exVert = 0 := by norm_num [den, sXX, sX, exVert]
  exact calcReg_degenerate exVert h2 hden

lemma exRound_den : den exRound = 15000 := by
  norm_num [den, sXX, sX, exRound]

lemma exRound_slope : slope exRound = 2000 := by
  norm_num [slope, den, sXY, sXX, sX, sY, exRound]

lemma exRound_intercept : intercept exRound = 0 := by
  norm_num [intercept, slope, den, sXY, sXX, sX, sY, exRound]

lemma exRound_ssTot : ssTot exRound = 20000000000 := by
  norm_num [ssTot, meanY, sY, exRound]

lemma exRound_ssRes : ssRes exRound = 0 := by
  norm_num [ssRes, slope, intercept, den, sXY, sXX, sX, sY, exRound]

lemma exRound_eval : calculateRegression exRound =
    Except.ok { m := 2000, b := 0, r2 := 1, rmseSq := 0, equation := "y = 2000.0000x + 0.00" } := by
  have h2 : ¬ exRound.length < 2 := by decide
  have hden : den exRound ≠ 0 := by rw [exRound_den]; norm_num
  rw [calcReg_main exRound h2 hden, exRound_slope, exRound_intercept, exRound_ssTot, exRound_ssRes]
  have heq : "y = " ++ toFixed (2000:ℚ) 4 ++ "x + " ++ toFixed (0:ℚ) 2 = "y = 2000.0000x + 0.00" := by
    rw [toFixed_concrete 2000 4 20000000 (by norm_num) (by norm_num) (by norm_num),
        toFixed_concrete 0 2 0 (by norm_num) (by norm_num) (by norm_num)]
    decide
  rw [heq]
  norm_num [exRound]

/-- `ssTot` vanishes exactly when all y values coincide. -/
lemma ssTot_eq_zero_iff (data : List DataPoint) (hne : data ≠ []) :
    ssTot data = 0 ↔ ∀ p ∈ data, ∀ q ∈ data, p.price = q.price := by
  have hlen : 0 < data.length := List.length_pos.mpr hne
  have hn : (data.length : ℚ) ≠ 0 := by
    exact_mod_cast Nat.pos_iff_ne_zero.mp hlen
  have hiff := sum_map_sq_eq_zero_iff data (fun p => p.price - meanY data)
  unfold ssTot
  rw [hiff]
  constructor
  · intro h p hp q hq
    have hp' := h p hp
    have hq' := h q hq
    have h1 : p.price = meanY data := by linarith
    have h2 : q.price = meanY data := by linarith
    rw [h1, h2]
  · intro h p hp
    have hall : ∀ x ∈ data.map (fun p => p.price), x = p.price := by
      intro x hx
      rcases List.mem_map.mp hx with ⟨q, hq, rfl⟩
      exact h q hq p hp
    have hsum : (data.map (fun p => p.price)).sum
        = ((data.map (fun p => p.price)).length : ℚ) * p.price :=
      sum_const_of_all _ _ hall
    have hsY : sY data = (data.length : ℚ) * p.price := by
      rw [sY, hsum, List.length_map]
    unfold meanY
    rw [hsY]
    field_simp

/-! Claim theorems. -/

/-- C1: for every sequence of at least 2 observations whose x values are not
all identical, `calculateRegression` returns the closed-form OLS result:
slope `(n·sumXY − sumX·sumY) / (n·sumXX − sumX²)`, intercept
`(sumY − slope·sumX) / n`, and rmse `sqrt(ssRes / n)` with
`ssRes = Σ(y − (slope·x + intercept))²`; in particular on the points
(1,5),(2,7),(3,9),(4,11) of the line y = 2x + 3 it returns slope 2,
intercept 3, r2 = 1 and rmse 0. -/
theorem claim_C1 :
    (∀ data : List DataPoint, 2 ≤ data.length →
      (∃ p ∈ data, ∃ q ∈ data, p.area ≠ q.area) →
      ∃ r, calculateRegression data = Except.ok r ∧
        r.m = ((data.length : ℚ) * sXY data - sX data * sY data)
              / ((data.length : ℚ) * sXX data - sX data * sX data) ∧
        r.b = (sY data - r.m * sX data) / (data.length : ℚ) ∧
        r.rmseSq = ssRes data / (data.length : ℚ) ∧
        Real.sqrt (r.rmseSq : ℝ) = Real.sqrt ((ssRes data / (data.length : ℚ) : ℚ) : ℝ)) ∧
    (calculateRegression exLine = Except.ok
      { m := 2, b := 3, r2 := 1, rmseSq := 0, equation := "y = 2.0000x + 3.00" } ∧
     Real.sqrt ((0 : ℚ) : ℝ) = 0) := by
  constructor
  · intro data h2 hx
    have hne : data ≠ [] := List.ne_nil_of_length_pos (by omega)
    have hden : den data ≠ 0 := by
      intro h0
      obtain ⟨p, hp, q, hq, hpq⟩ := hx
      exact hpq ((den_eq_zero_iff data hne).mp h0 p hp q hq)
    exact ⟨_, calcReg_main data (by omega) hden, rfl, rfl, rfl, rfl⟩
  · exact ⟨exLine_eval, by simp⟩

/-- C1 witness: the general part of C1 applied to the concrete list
`exLine`, whose x values 1,2,3,4 are not all identical. -/
theorem claim_C1_witness :
    ∃ r, calculateRegression exLine = Except.ok r ∧
      r.m = ((exLine.length : ℚ) * sXY exLine - sX exLine * sY exLine)
            / ((exLine.length : ℚ) * sXX exLine - sX exLine * sX exLine) ∧
      r.b = (sY exLine - r.m * sX exLine) / (exLine.length : ℚ) ∧
      r.rmseSq = ssRes exLine / (exLine.length : ℚ) ∧
      Real.sqrt (r.rmseSq : ℝ) = Real.sqrt ((ssRes exLine / (exLine.length : ℚ) : ℚ) : ℝ) :=
  claim_C1.1 exLine (by decide)
    ⟨⟨"a", 1, 5⟩, List.Mem.head _, ⟨"b", 2, 7⟩, List.Mem.tail _ (List.Mem.head _), by norm_num⟩

/-- C2: for every observation sequence of length strictly less than 2,
`calculateRegression` fails with the insufficient-data error, before any
sums or fit arithmetic (the guard is the first statement of the function,
and the embedding returns the error without touching the sums). -/
theorem claim_C2 (data : List DataPoint) (h : data.length < 2) :
    calculateRegression data = Except.error "Insufficient data points" :=
  calcReg_short data h

/-- C2 witness: the empty list is rejected. -/
theorem claim_C2_witness :
    ([] : List DataPoint).length < 2 ∧
    calculateRegression [] = Except.error "Insufficient data points" :=
  ⟨by decide, claim_C2 [] (by decide)⟩

/-- C3: for sequences of at least 2 observations, the denominator
`n·sumXX − sumX²` vanishes exactly when all x values are identical, and in
that case `calculateRegression` does not fail but returns the degenerate
sentinel: slope 0, intercept 0, r2 0, rmse 0 (`√0 = 0`), equation text
exactly "Undefined (Vertical Line)". -/
theorem claim_C3 (data : List DataPoint) (h2 : 2 ≤ data.length) :
    (den data = 0 ↔ ∀ p ∈ data, ∀ q ∈ data, p.area = q.area) ∧
    ((∀ p ∈ data, ∀ q ∈ data, p.area = q.area) →
      calculateRegression data = Except.ok
        { m := 0, b := 0, r2 := 0, rmseSq := 0, equation := "Undefined (Vertical Line)" } ∧
      Real.sqrt ((0 : ℚ) : ℝ) = 0) := by
  have hne : data ≠ [] := List.ne_nil_of_length_pos (by omega)
  have hiff := den_eq_zero_iff data hne
  exact ⟨hiff, fun hall =>
    ⟨calcReg_degenerate data (by omega) (hiff.mpr hall), by simp⟩⟩

/-- C3 witness: C3 applied to the all-x-equal list `exVert`. -/
theorem claim_C3_witness :
    (den exVert = 0 ↔ ∀ p ∈ exVert, ∀ q ∈ exVert, p.area = q.area) ∧
    ((∀ p ∈ exVert, ∀ q ∈ exVert, p.area = q.area) →
      calculateRegression exVert = Except.ok
        { m := 0, b := 0, r2 := 0, rmseSq := 0, equation := "Undefined (Vertical Line)" } ∧
      Real.sqrt ((0 : ℚ) : ℝ) = 0) :=
  claim_C3 exVert (by decide)

/-- C4: on the non-degenerate path, r2 is exactly 0 when
`ssTot = Σ(y − meanY)²` is 0 (equivalently all y values are identical), and
otherwise equals `1 − ssRes/ssTot` as computed, with no clamping applied. -/
theorem claim_C4 (data : List DataPoint) (h2 : 2 ≤ data.length)
    (hden : den data ≠ 0) :
    (ssTot data = 0 ↔ ∀ p ∈ data, ∀ q ∈ data, p.price = q.price) ∧
    ∃ r, calculateRegression data = Except.ok r ∧
      (ssTot data = 0 → r.r2 = 0) ∧
      (ssTot data ≠ 0 → r.r2 = 1 - ssRes data / ssTot data) := by
  have hne : data ≠ [] := List.ne_nil_of_length_pos (by omega)
  refine ⟨ssTot_eq_zero_iff data hne, _, calcReg_main data (by omega) hden, ?_, ?_⟩
  · intro h
    simp [h]
  · intro h
    simp [h]

/-- C4 witness: C4 applied to the constant-y list `exConstY`
(y identically 50, x values 1,2,3). -/
theorem claim_C4_witness :
    (ssTot exConstY = 0 ↔ ∀ p ∈ exConstY, ∀ q ∈ exConstY, p.price = q.price) ∧
    ∃ r, calculateRegression exConstY = Except.ok r ∧
      (ssTot exConstY = 0 → r.r2 = 0) ∧
      (ssTot exConstY ≠ 0 → r.r2 = 1 - ssRes exConstY / ssTot exConstY) :=
  claim_C4 exConstY (by decide) (by norm_num [den, sXX, sX, exConstY])

/-- C5: for every sequence of at least 2 observations the computation
cannot fail — some result is returned — and an error is produced exactly
by the length guard, with the insufficient-data message. -/
theorem claim_C5 (data : List DataPoint) :
    (2 ≤ data.length → ∃ r, calculateRegression data = Except.ok r) ∧
    (∀ e, calculateRegression data = Except.error e →
      data.length < 2 ∧ e = "Insufficient data points") := by
  constructor
  · intro h2
    by_cases hden : den data = 0
    · exact ⟨_, calcReg_degenerate data (by omega) hden⟩
    · exact ⟨_, calcReg_main data (by omega) hden⟩
  · intro e he
    by_cases h2 : data.length < 2
    · refine ⟨h2, ?_⟩
      rw [calcReg_short data h2] at he
      exact (Except.error.inj he).symm
    · exfalso
      by_cases hden : den data = 0
      · rw [calcReg_degenerate data h2 hden] at he
        exact Except.noConfusion he
      · rw [calcReg_main data h2 hden] at he
        exact Except.noConfusion he

/-- C5 witness: a successful result exists for the 4-point list `exLine`. -/
theorem claim_C5_witness : ∃ r, calculateRegression exLine = Except.ok r :=
  (claim_C5 exLine).1 (by decide)

/-- C6: `calculateRegression` is permutation-invariant and deterministic:
two input sequences that are permutations of the same observation multiset
produce identical results (exact equality of the whole result record, the
embedding's reading of "bit-identical"). -/
theorem claim_C6 (d e : List DataPoint) (h : List.Perm d e) :
    calculateRegression d = calculateRegression e := by
  apply calcReg_congr d e h.length_eq
  · exact (h.map (fun p => p.area)).sum_eq
  · exact (h.map (fun p => p.price)).sum_eq
  · exact (h.map (fun p => p.area * p.price)).sum_eq
  · exact (h.map (fun p => p.area * p.area)).sum_eq
  · intro c
    exact (h.map (fun p => (p.price - c) ^ 2)).sum_eq
  · intro mq bq
    exact (h.map (fun p => (p.price - (mq * p.area + bq)) ^ 2)).sum_eq

/-- C6 witness: swapping the two observations of a concrete list leaves the
result unchanged. -/
theorem claim_C6_witness :
    calculateRegression [⟨"a", 1, 5⟩, ⟨"b", 2, 7⟩]
      = calculateRegression [⟨"b", 2, 7⟩, ⟨"a", 1, 5⟩] :=
  claim_C6 _ _ (List.Perm.swap _ _ _)

/-- C7: `predictPrice area m b` is exactly `m·area + b` for every input,
with no validation (it is total on ℚ); `predictPrice 10 2 3 = 23`; fitting
the round-trip points (50,100000),(100,200000),(150,300000) yields slope
2000, intercept 0, r2 = 1, rmse 0 (`√0 = 0`) and equation
"y = 2000.0000x + 0.00", and the fitted line predicts 150000 at 75. -/
theorem claim_C7 :
    (∀ area mv bv : ℚ, predictPrice area mv bv = mv * area + bv) ∧
    predictPrice 10 2 3 = 23 ∧
    calculateRegression exRound = Except.ok
      { m := 2000, b := 0, r2 := 1, rmseSq := 0, equation := "y = 2000.0000x + 0.00" } ∧
    predictPrice 75 2000 0 = 150000 ∧
    Real.sqrt ((0 : ℚ) : ℝ) = 0 := by
  refine ⟨fun area mv bv => rfl, by norm_num [predictPrice], exRound_eval,
    by norm_num [predictPrice], by simp⟩

/-- C8: every successful non-degenerate fit renders the equation as the
literal pattern "y = {slope}x + {intercept}" with the slope via `toFixed 4`
and the intercept via `toFixed 2`; `toFixed` always produces fixed-point
text whose fractional part has exactly the requested number of decimal
digits (all digit characters, no exponent); e.g. 0.1234 renders as
"0.1234" and 56.78 as "56.78". -/
theorem claim_C8 (data : List DataPoint) (h2 : 2 ≤ data.length)
    (hden : den data ≠ 0) :
    (∃ r, calculateRegression data = Except.ok r ∧
      r.equation = "y = " ++ toFixed r.m 4 ++ "x + " ++ toFixed r.b 2) ∧
    (∀ q : ℚ, ∀ k : ℕ, 0 < k → ∃ pre frac, toFixed q k = pre ++ "." ++ frac ∧
      frac.length = k ∧ ∀ ch ∈ frac.data, ch.isDigit = true) ∧
    toFixed (1234 / 10000 : ℚ) 4 = "0.1234" ∧
    toFixed (5678 / 100 : ℚ) 2 = "56.78" := by
  refine ⟨⟨_, calcReg_main data (by omega) hden, rfl⟩,
    fun q k hk => toFixed_structure q k hk, ?_, ?_⟩
  · rw [toFixed_concrete (1234 / 10000) 4 1234 (by norm_num) (by norm_num) (by norm_num)]
    decide
  · rw [toFixed_concrete (5678 / 100) 2 5678 (by norm_num) (by norm_num) (by norm_num)]
    decide

/-- C8 witness: C8 applied to the concrete list `exRound`. -/
theorem claim_C8_witness :
    (∃ r, calculateRegression exRound = Except.ok r ∧
      r.equation = "y = " ++ toFixed r.m 4 ++ "x + " ++ toFixed r.b 2) ∧
    (∀ q : ℚ, ∀ k : ℕ, 0 < k → ∃ pre frac, toFixed q k = pre ++ "." ++ frac ∧
      frac.length = k ∧ ∀ ch ∈ frac.data, ch.isDigit = true) ∧
    toFixed (1234 / 10000 : ℚ) 4 = "0.1234" ∧
    toFixed (5678 / 100 : ℚ) 2 = "56.78" :=
  claim_C8 exRound (by decide) (by norm_num [den, sXX, sX, exRound])

/-- C9: the result of `calculateRegression` depends only on the (area,
price) components of the points: two inputs that agree pointwise on area
and price but differ arbitrarily in `id` give identical results. -/
theorem claim_C9 (d e : List DataPoint) (h : d.map pairOf = e.map pairOf) :
    calculateRegression d = calculateRegression e := by
  have hlen : d.length = e.length := by
    have hc := congrArg List.length h
    simpa using hc
  apply calcReg_congr d e hlen
  · exact mapsum_of_pair_eq d e h (fun v => v.1)
  · exact mapsum_of_pair_eq d e h (fun v => v.2)
  · exact mapsum_of_pair_eq d e h (fun v => v.1 * v.2)
  · exact mapsum_of_pair_eq d e h (fun v => v.1 * v.1)
  · intro c
    exact mapsum_of_pair_eq d e h (fun v => (v.2 - c) ^ 2)
  · intro mq bq
    exact mapsum_of_pair_eq d e h (fun v => (v.2 - (mq * v.1 + bq)) ^ 2)

/-- C9 witness: renaming the ids of a concrete list does not change the
result. -/
theorem claim_C9_witness :
    calculateRegression [⟨"a", 1, 5⟩, ⟨"b", 2, 7⟩]
      = calculateRegression [⟨"x", 1, 5⟩, ⟨"y", 2, 7⟩] :=
  claim_C9 _ _ rfl

/-- C10: for every accepted input (length at least 2) the result satisfies
`r2 ≤ 1` and `rmse ≥ 0`: the radicand `ssRes / n` is nonnegative and so is
its square root, and `r2` is either a branch returning 0 or
`1 − ssRes/ssTot` with both sums of squares nonnegative. -/
theorem claim_C10 (data : List DataPoint) (h2 : 2 ≤ data.length) :
    ∃ r, calculateRegression data = Except.ok r ∧
      r.r2 ≤ 1 ∧ 0 ≤ r.rmseSq ∧ 0 ≤ Real.sqrt (r.rmseSq : ℝ) := by
  by_cases hden : den data = 0
  · refine ⟨_, calcReg_degenerate data (by omega) hden, by norm_num, by norm_num, ?_⟩
    exact Real.sqrt_nonneg _
  · refine ⟨_, calcReg_main data (by omega) hden, ?_, ?_, ?_⟩
    · by_cases hT : ssTot data = 0
      · simp [hT]
      · simp only [hT, if_false, ite_false]
        have hR : 0 ≤ ssRes data := by
          unfold ssRes
          exact sum_map_sq_nonneg data _
        have hT0 : 0 ≤ ssTot data := by
          unfold ssTot
          exact sum_map_sq_nonneg data _
        have hdiv : 0 ≤ ssRes data / ssTot data := div_nonneg hR hT0
        linarith
    · have hR : 0 ≤ ssRes data := by
        unfold ssRes
        exact sum_map_sq_nonneg data _
      have hn : (0 : ℚ) ≤ (data.length : ℚ) := by positivity
      exact div_nonneg hR hn
    · exact Real.sqrt_nonneg _

/-- C10 witness: C10 applied to the concrete all-x-equal list `exVert`. -/
theorem claim_C10_witness :
    ∃ r, calculateRegression exVert = Except.ok r ∧
      r.r2 ≤ 1 ∧ 0 ≤ r.rmseSq ∧ 0 ≤ Real.sqrt (r.rmseSq : ℝ) :=
  claim_C10 exVert (by decide)

end Regression
